import Mathlib

/-!
Verification development for the audit-event streaming dispatcher of
grist-core and for the stream utility `drainWhenSettled`.

The repository snapshot contains the dispatcher's test suite
(`test/server/lib/AuditLogger.ts`) but not the production module
`app/server/lib/AuditLogger.ts` itself, so the dispatcher below is
modelled from the specification (sections 3-7 of the spec), with the
test file fixing concrete observable behaviour (header values, the
error-message marker, the admission arithmetic).  `drainWhenSettled`
is embedded directly from `app/server/utils/streams.ts`.
-/

/-- Decidable equality for `Except`, so that concrete dispatch outcomes can
be settled by `decide`. -/
instance exceptDecEq {ε α : Type} [DecidableEq ε] [DecidableEq α] :
    DecidableEq (Except ε α) := fun x y =>
  match x, y with
  | .ok a, .ok b =>
    if h : a = b then isTrue (by rw [h])
    else isFalse (by intro hc; cases hc; exact h rfl)
  | .ok _, .error _ => isFalse (by intro hc; cases hc)
  | .error _, .ok _ => isFalse (by intro hc; cases hc)
  | .error a, .error b =>
    if h : a = b then isTrue (by rw [h])
    else isFalse (by intro hc; cases hc; exact h rfl)

namespace AuditLog

/-- Modelled from the spec: a configured HTTP sink
(`{id, name, url, token: optional}`, spec section 3 "Destination"),
matching the JSON objects the test PUTs to
`/configs/audit_log_streaming_destinations`. -/
structure Destination where
  id : String
  name : String
  url : String
  token : Option String
deriving Repr, DecidableEq

/-- Modelled from the spec: site (tenant) context carried by an event
(`context: {site: {id}}`). -/
structure SiteContext where
  id : Nat
deriving Repr, DecidableEq

/-- Modelled from the spec: the optional `context` field of an audit event. -/
structure EventContext where
  site : Option SiteContext
deriving Repr, DecidableEq

/-- Modelled from the spec: an audit event: `action` (dot-namespaced string),
optional `context`, and event-specific `details` (kept abstract as a string). -/
structure AuditEvent where
  action : String
  context : Option EventContext
  details : String
deriving Repr, DecidableEq

/-- Modelled from the spec: a configuration scope - installation-wide or a
single site (spec section 3 "Scope chain", Glossary "Scope"). -/
inductive Scope where
  | install
  | site (id : Nat)
deriving Repr, DecidableEq

/-- Modelled from the spec: the ordered scope chain of an event - always the
installation scope, plus the site scope when `context.site.id` is present
(spec section 4.5 step 1). -/
def scopeChain (e : AuditEvent) : List Scope :=
  match e.context with
  | some ctx =>
    match ctx.site with
    | some s => [Scope.install, Scope.site s.id]
    | none => [Scope.install]
  | none => [Scope.install]

/-- Modelled from the spec: one destination-cache entry: the fetched value
and its fetch time (spec section 9: "a mapping from scope-key to
`(value, fetchedAt)`"). -/
structure CacheEntry where
  value : List Destination
  fetchedAt : Nat
deriving Repr, DecidableEq

/-- Modelled from the spec: the registry cache, a finite map from scope key
to cache entry, embedded as an association list. -/
abbrev Registry := List (Scope × CacheEntry)

/-- Modelled from the spec: the pure freshness check
`(now - fetchedAt) < TTL` (spec section 9), on `Nat` clock values. -/
def cacheFresh (ttl now fetchedAt : Nat) : Bool :=
  now - fetchedAt < ttl

/-- Modelled from the spec: `resolve(scope)` of the Destination Registry
(spec section 4.1): serve a fresh cached value, otherwise fetch from the
configuration store and cache the result at time `now`. -/
def resolve (store : Scope → List Destination) (ttl now : Nat)
    (reg : Registry) (scope : Scope) : List Destination × Registry :=
  match reg.find? (fun p => p.1 == scope) with
  | some p =>
    if cacheFresh ttl now p.2.fetchedAt then
      (p.2.value, reg)
    else
      let v := store scope
      (v, (scope, ⟨v, now⟩) :: reg.filter (fun q => q.1 != scope))
  | none =>
    let v := store scope
    (v, (scope, ⟨v, now⟩) :: reg.filter (fun q => q.1 != scope))

/-- Modelled from the spec: resolve every scope of a chain in order,
threading the registry cache (spec section 4.5 step 2). -/
def resolveChain (store : Scope → List Destination) (ttl now : Nat) :
    Registry → List Scope → List (Scope × List Destination) × Registry
  | reg, [] => ([], reg)
  | reg, s :: rest =>
    let r := resolve store ttl now reg s
    let rc := resolveChain store ttl now r.2 rest
    ((s, r.1) :: rc.1, rc.2)

/-- Modelled from the spec: first-non-null formatter lookup: try each
installed formatter in registration order, use the first non-null payload
(spec section 4.2). -/
def tryFormat (formatters : List (AuditEvent → Option String))
    (e : AuditEvent) : Option String :=
  match formatters with
  | [] => none
  | f :: rest =>
    match f e with
    | some p => some p
    | none => tryFormat rest e

/-- Modelled from the spec: the outcome of one delivery attempt
(spec section 3 "Delivery attempt", section 4.4). -/
inductive DeliveryResult where
  | success
  | failure (reason : String)
deriving Repr, DecidableEq

/-- Modelled from the spec: one outbound HTTP POST as observed on the wire:
target url, destination id, JSON payload, and the optional `Authorization`
header.  Per the test file the header value is the configured token
verbatim (the configured tokens carry the `Bearer` scheme). -/
structure Request where
  url : String
  destId : String
  payload : String
  authHeader : Option String
deriving Repr, DecidableEq

/-- Modelled from the spec: build the POST for one (event, destination)
pair: JSON payload to `destination.url`, `Authorization` header present
exactly when `destination.token` is set (spec section 4.4). -/
def mkRequest (d : Destination) (payload : String) : Request :=
  { url := d.url, destId := d.id, payload := payload, authHeader := d.token }

/-- Modelled from the spec: the error taxonomy of a dispatch
(spec section 7): no formatter matched, admission refused, or an
aggregated streaming failure carrying each failing destination's
identifier and reason. -/
inductive DispatchError where
  | noFormatter
  | admissionExceeded (required available : Nat)
  | streaming (failures : List (String × String))
deriving Repr, DecidableEq

/-- The fixed marker required by the test's rejection pattern
`/encountered errors while streaming audit event/`. -/
def streamingErrMarker : String :=
  "encountered errors while streaming audit event"

/-- Modelled from the spec: render the aggregated failure list, one
`id: reason` fragment per failing destination. -/
def enumerateFailures : List (String × String) → String
  | [] => ""
  | f :: rest => "; " ++ f.1 ++ ": " ++ f.2 ++ enumerateFailures rest

/-- Modelled from the spec: caller-visible message of each dispatch error.
Both the aggregated streaming error and the admission-refusal error match
`/encountered errors while streaming audit event/` (test cases at lines
221-250 and 252-296 of the test file assert this pattern for both). -/
def DispatchError.message : DispatchError → String
  | .noFormatter => "no formatter found for audit event"
  | .admissionExceeded _ _ =>
    streamingErrMarker ++ ": exceeded maximum concurrent requests"
  | .streaming failures => streamingErrMarker ++ enumerateFailures failures

/-- Modelled from the spec: the observable steps of one dispatch, in the
order the dispatcher performs them (spec section 4.5 and section 5
"Ordering guarantees"). -/
inductive Action where
  | resolveScope (scope : Scope) (dests : List Destination)
  | formatPayload (destId : String) (payload : String)
  | acquireSlots (count : Nat)
  | send (r : Request)
  | releaseSlot (destId : String)
deriving Repr, DecidableEq

/-- The HTTP requests actually issued in a trace. -/
def sends (trace : List Action) : List Request :=
  trace.filterMap fun a =>
    match a with
    | .send r => some r
    | _ => none

/-- Preparatory steps of a dispatch: destination resolution and payload
formatting (spec section 5 "Ordering guarantees"). -/
def Action.isPreparatory : Action → Bool
  | .resolveScope _ _ => true
  | .formatPayload _ _ => true
  | _ => false

/-- Admission and network steps: slot acquisition and HTTP sends. -/
def Action.isAdmissionOrSend : Action → Bool
  | .acquireSlots _ => true
  | .send _ => true
  | _ => false

/-- Result of one `logEventOrThrow` call: the caller-visible outcome, the
trace of observable steps, and the registry cache after the call. -/
structure DispatchResult where
  outcome : Except DispatchError Unit
  trace : List Action
  registry : Registry
deriving Repr, DecidableEq

/-- The flattened target list of an event: destinations of every scope of
its chain, in chain order (spec section 4.5 step 2). -/
def eventTargets (store : Scope → List Destination) (ttl now : Nat)
    (reg : Registry) (e : AuditEvent) : List Destination :=
  ((resolveChain store ttl now reg (scopeChain e)).1.map Prod.snd).flatten

/-- The resolution steps of a dispatch, one per scope of the chain. -/
def resolveTrace (store : Scope → List Destination) (ttl now : Nat)
    (reg : Registry) (e : AuditEvent) : List Action :=
  (resolveChain store ttl now reg (scopeChain e)).1.map fun p =>
    Action.resolveScope p.1 p.2

/-- The registry cache state after resolving an event's scope chain. -/
def regAfter (store : Scope → List Destination) (ttl now : Nat)
    (reg : Registry) (e : AuditEvent) : Registry :=
  (resolveChain store ttl now reg (scopeChain e)).2

/-- Per-target delivery failures, as `(destination id, reason)` pairs in
target order (spec section 7 `DeliveryFailure(destinationId, reason)`). -/
def deliveryFailures (respond : Destination → DeliveryResult)
    (targets : List Destination) : List (String × String) :=
  targets.filterMap fun d =>
    match respond d with
    | .success => none
    | .failure reason => some (d.id, reason)

/-- Modelled from the spec: the missing production entry point
`AuditLogger.logEventOrThrow` (spec section 4.5, steps 1-9):
resolve the scope chain, flatten the target list, succeed at once when it
is empty, format via the first non-null formatter, refuse admission when
the event's delivery count would push outstanding requests past the
ceiling, otherwise issue one request per target and aggregate failures.
`respond` abstracts the network at the interface of spec section 4.4;
`inflight` is the number of deliveries already outstanding from other
concurrent dispatches. -/
def logEventOrThrow (store : Scope → List Destination) (ttl now : Nat)
    (formatters : List (AuditEvent → Option String))
    (maxConcurrent inflight : Nat)
    (respond : Destination → DeliveryResult)
    (reg : Registry) (actingUser : Option String) (e : AuditEvent) :
    DispatchResult :=
  let targets := eventTargets store ttl now reg e
  let resolveActions := resolveTrace store ttl now reg e
  let reg' := regAfter store ttl now reg e
  if targets = [] then
    ⟨.ok (), resolveActions, reg'⟩
  else
    match tryFormat formatters e with
    | none => ⟨.error .noFormatter, resolveActions, reg'⟩
    | some payload =>
      let n := targets.length
      let formatActions := targets.map fun d => Action.formatPayload d.id payload
      if maxConcurrent < inflight + n then
        ⟨.error (.admissionExceeded n (maxConcurrent - inflight)),
          resolveActions ++ formatActions, reg'⟩
      else
        let failures := deliveryFailures respond targets
        ⟨if failures = [] then .ok () else .error (.streaming failures),
          resolveActions ++ formatActions
            ++ [Action.acquireSlots n]
            ++ targets.map (fun d => Action.send (mkRequest d payload))
            ++ targets.map (fun d => Action.releaseSlot d.id),
          reg'⟩

/-- Modelled from the spec: the only state shared by concurrent dispatches,
the admission slots each active dispatch currently holds (spec section 5
"Shared-resource policy", section 4.3). -/
structure SystemState where
  held : List Nat
deriving Repr, DecidableEq

/-- Total number of admission slots held across all active dispatches. -/
def SystemState.totalHeld (s : SystemState) : Nat := s.held.sum

/-- Modelled from the spec: the transitions of the shared admission
controller (spec section 4.3): a dispatch atomically acquires all `n` slots
it needs when they fit under the ceiling; is refused outright (state
unchanged) when they do not; and releases exactly one slot whenever one of
its deliveries completes, whether that delivery succeeded or failed. -/
inductive SysStep (maxConcurrent : Nat) : SystemState → SystemState → Prop where
  | acquire (s : SystemState) (n : Nat)
      (h : s.totalHeld + n ≤ maxConcurrent) :
      SysStep maxConcurrent s ⟨n :: s.held⟩
  | refuse (s : SystemState) (n : Nat)
      (h : maxConcurrent < s.totalHeld + n) :
      SysStep maxConcurrent s s
  | complete (l₁ l₂ : List Nat) (k : Nat) (success : Bool) :
      SysStep maxConcurrent ⟨l₁ ++ (k + 1) :: l₂⟩ ⟨l₁ ++ k :: l₂⟩

/-- States reachable from the idle system (no slots held). -/
inductive SysReachable (maxConcurrent : Nat) : SystemState → Prop where
  | init : SysReachable maxConcurrent ⟨[]⟩
  | step {s t : SystemState} : SysReachable maxConcurrent s →
      SysStep maxConcurrent s t → SysReachable maxConcurrent t

/-- The two installation-scope destinations configured by the test file
(lines 150-166). -/
def testInstallDests : List Destination :=
  [⟨"62c9ed25-1195-48e7-a9f6-0ba164128c20", "other",
      "https://audit.example.com/events/install",
      some "Bearer a6c8c7fd-b1d7-431e-8d64-3302f7ea0d74"⟩,
    ⟨"4f174ff7-4f56-45c7-b557-712168f7cbec", "other",
      "https://audit.example.com/events/install2", none⟩]

/-- The two site-scope destinations configured by the test file
(lines 167-183). -/
def testSiteDests : List Destination :=
  [⟨"68e44fae-6684-4487-9bef-e42870ffcfc1", "other",
      "https://audit.example.com/events/site",
      some "Bearer 6f1003e8-3d33-4d45-8a0c-54bcb2a155f1"⟩,
    ⟨"555058db-9359-4e41-be6e-6078b72c7bd9", "other",
      "https://audit.example.com/events/site2", none⟩]

/-- The configuration store as the multi-destination tests set it up:
two installation destinations, two destinations for site 42. -/
def testStore : Scope → List Destination
  | .install => testInstallDests
  | .site 42 => testSiteDests
  | .site _ => []

/-- The `document.create` event with site context used throughout the
test file. -/
def testEvent : AuditEvent :=
  ⟨"document.create", some ⟨some ⟨42⟩⟩, "Project Lollipop"⟩

/-- A formatter set with one always-succeeding formatter, standing for the
`GenericEventFormatter` the test installs. -/
def testFormatters : List (AuditEvent → Option String) :=
  [fun e => some e.action]

/-- The per-destination outcomes of the non-2XX test (lines 221-250):
`/events/install` replies 200, and the three remaining endpoints reply
400, 404 and 500. -/
def testRespond : Destination → DeliveryResult := fun d =>
  if d.url = "https://audit.example.com/events/install" then .success
  else if d.url = "https://audit.example.com/events/install2" then
    .failure "400 Bad request"
  else if d.url = "https://audit.example.com/events/site" then
    .failure "404 Not found"
  else .failure "500 Internal server error"

end AuditLog

namespace Streams

/-- State of a readable stream as `drainWhenSettled` observes it: whether
it is still `readable`, whether it has been switched to flowing mode by
`resume()`, and the outcome that awaiting `stream.promises.finished`
produces (`ok` once the stream is fully drained, `error` when draining
itself errors). -/
structure StreamState where
  readable : Bool
  flowing : Bool
  drainResult : Except String Unit
deriving Repr, DecidableEq

/-- Observable steps of one `drainWhenSettled` call, in order. -/
inductive StreamAction where
  | awaitPromise
  | resumeStream
  | awaitFinished
  | settleReturned
deriving Repr, DecidableEq

/-- Embedding of `drainWhenSettled` (`app/server/utils/streams.ts`,
lines 31-40): await the promise inside `try`; in `finally`, call
`stream.resume()` if the stream is still readable, then await
`promises.finished(stream)`.  Per JavaScript `try`/`finally` semantics the
settled state of `promise` is returned unless the `finally` block throws,
in which case the drain error replaces it.  Returns the settled outcome,
the final stream state, and the ordered trace of observable steps. -/
def drainWhenSettled {T : Type} (stream : StreamState)
    (promise : Except String T) :
    Except String T × StreamState × List StreamAction :=
  let s₁ := if stream.readable then { stream with flowing := true } else stream
  let resumeActs := if stream.readable then [StreamAction.resumeStream] else []
  let result :=
    match s₁.drainResult with
    | .ok _ => promise
    | .error err => .error err
  (result, s₁,
    [StreamAction.awaitPromise] ++ resumeActs
      ++ [StreamAction.awaitFinished, StreamAction.settleReturned])

end Streams

namespace AuditLog

theorem sends_append (l₁ l₂ : List Action) :
    sends (l₁ ++ l₂) = sends l₁ ++ sends l₂ := by
  simp [sends]

theorem sends_resolveTrace (store : Scope → List Destination) (ttl now : Nat)
    (reg : Registry) (e : AuditEvent) :
    sends (resolveTrace store ttl now reg e) = [] := by
  simp [sends, resolveTrace, List.filterMap_map, Function.comp]

theorem sends_formatTrace (targets : List Destination) (payload : String) :
    sends (targets.map fun d => Action.formatPayload d.id payload) = [] := by
  simp [sends, List.filterMap_map, Function.comp]

theorem sends_sendTrace (targets : List Destination) (payload : String) :
    sends (targets.map fun d => Action.send (mkRequest d payload)) =
      targets.map fun d => mkRequest d payload := by
  induction targets with
  | nil => rfl
  | cons d rest ih =>
    simpa [sends, List.filterMap_cons] using ih

theorem sends_releaseTrace (targets : List Destination) :
    sends (targets.map fun d => Action.releaseSlot d.id) = [] := by
  simp [sends, List.filterMap_map, Function.comp]

theorem sends_acquireSingleton (n : Nat) :
    sends [Action.acquireSlots n] = [] := rfl

section DispatchBranches

variable (store : Scope → List Destination) (ttl now : Nat)
  (formatters : List (AuditEvent → Option String))
  (maxConcurrent inflight : Nat) (respond : Destination → DeliveryResult)
  (reg : Registry) (u : Option String) (e : AuditEvent)

theorem logEvent_emptyBranch
    (h : eventTargets store ttl now reg e = []) :
    logEventOrThrow store ttl now formatters maxConcurrent inflight respond reg u e =
      ⟨.ok (), resolveTrace store ttl now reg e, regAfter store ttl now reg e⟩ := by
  simp [logEventOrThrow, h]

theorem logEvent_noFormatterBranch
    (h : eventTargets store ttl now reg e ≠ [])
    (hf : tryFormat formatters e = none) :
    logEventOrThrow store ttl now formatters maxConcurrent inflight respond reg u e =
      ⟨.error .noFormatter, resolveTrace store ttl now reg e,
        regAfter store ttl now reg e⟩ := by
  simp [logEventOrThrow, h, hf]

theorem logEvent_admissionBranch (payload : String)
    (h : eventTargets store ttl now reg e ≠ [])
    (hf : tryFormat formatters e = some payload)
    (ha : maxConcurrent < inflight + (eventTargets store ttl now reg e).length) :
    logEventOrThrow store ttl now formatters maxConcurrent inflight respond reg u e =
      ⟨.error (.admissionExceeded (eventTargets store ttl now reg e).length
          (maxConcurrent - inflight)),
        resolveTrace store ttl now reg e
          ++ (eventTargets store ttl now reg e).map
              (fun d => Action.formatPayload d.id payload),
        regAfter store ttl now reg e⟩ := by
  simp [logEventOrThrow, h, hf, ha]

theorem logEvent_deliverBranch (payload : String)
    (h : eventTargets store ttl now reg e ≠ [])
    (hf : tryFormat formatters e = some payload)
    (ha : inflight + (eventTargets store ttl now reg e).length ≤ maxConcurrent) :
    logEventOrThrow store ttl now formatters maxConcurrent inflight respond reg u e =
      ⟨if deliveryFailures respond (eventTargets store ttl now reg e) = [] then .ok ()
          else .error (.streaming (deliveryFailures respond (eventTargets store ttl now reg e))),
        resolveTrace store ttl now reg e
          ++ (eventTargets store ttl now reg e).map
              (fun d => Action.formatPayload d.id payload)
          ++ [Action.acquireSlots (eventTargets store ttl now reg e).length]
          ++ (eventTargets store ttl now reg e).map
              (fun d => Action.send (mkRequest d payload))
          ++ (eventTargets store ttl now reg e).map
              (fun d => Action.releaseSlot d.id),
        regAfter store ttl now reg e⟩ := by
  simp [logEventOrThrow, h, hf, Nat.not_lt.mpr ha]

end DispatchBranches

theorem tryFormat_eq_none_of_all_none (e : AuditEvent) :
    ∀ (fs : List (AuditEvent → Option String)),
      (∀ f ∈ fs, f e = none) → tryFormat fs e = none
  | [], _ => rfl
  | f :: rest, h => by
    have h0 : f e = none := h f (List.mem_cons_self f rest)
    simp only [tryFormat, h0]
    exact tryFormat_eq_none_of_all_none e rest
      (fun g hg => h g (List.mem_cons_of_mem f hg))

theorem tryFormat_first (e : AuditEvent) :
    ∀ (fs : List (AuditEvent → Option String)) (k : Nat) (hk : k < fs.length)
      (p : String),
      (fs.get ⟨k, hk⟩) e = some p →
      (∀ j (hj : j < k), (fs.get ⟨j, Nat.lt_trans hj hk⟩) e = none) →
      tryFormat fs e = some p
  | [], k, hk, p, _, _ => absurd hk (by simp)
  | f :: rest, 0, _, p, hp, _ => by
    simp only [List.get] at hp
    simp only [tryFormat, hp]
  | f :: rest, k + 1, hk, p, hp, hnone => by
    have h0 : f e = none := hnone 0 (Nat.succ_pos k)
    simp only [tryFormat, h0]
    exact tryFormat_first e rest k (Nat.lt_of_succ_lt_succ hk) p hp
      (fun j hj => hnone (j + 1) (Nat.succ_lt_succ hj))

theorem mem_deliveryFailures (respond : Destination → DeliveryResult)
    (T : List Destination) (p : String × String) :
    p ∈ deliveryFailures respond T ↔
      ∃ d, d ∈ T ∧ respond d = .failure p.2 ∧ d.id = p.1 := by
  simp only [deliveryFailures, List.mem_filterMap]
  constructor
  · rintro ⟨d, hd, hm⟩
    cases hr : respond d with
    | success => rw [hr] at hm; simp at hm
    | failure reason =>
      rw [hr] at hm
      simp only at hm
      injection hm with hm
      subst hm
      exact ⟨d, hd, by rw [hr], rfl⟩
  · rintro ⟨d, hd, hr, hid⟩
    refine ⟨d, hd, ?_⟩
    rw [hr]
    simp [hid]

theorem deliveryFailure_mem (respond : Destination → DeliveryResult)
    (T : List Destination) (d : Destination) (r : String)
    (hd : d ∈ T) (hr : respond d = .failure r) :
    (d.id, r) ∈ deliveryFailures respond T := by
  simp only [deliveryFailures, List.mem_filterMap]
  exact ⟨d, hd, by rw [hr]⟩

theorem targets_ne_of_failures (respond : Destination → DeliveryResult)
    (T : List Destination) (h : deliveryFailures respond T ≠ []) : T ≠ [] := by
  intro h0
  subst h0
  exact h rfl

end AuditLog

namespace AuditLog

theorem resolve_ttl_zero (store : Scope → List Destination) (now : Nat)
    (reg : Registry) (scope : Scope) :
    (resolve store 0 now reg scope).1 = store scope := by
  unfold resolve
  cases h : reg.find? (fun p => p.1 == scope) with
  | none => rfl
  | some p => simp [cacheFresh]

theorem resolveChain_fst_ttl_zero (store : Scope → List Destination) (now : Nat) :
    ∀ (chain : List Scope) (reg : Registry),
      (resolveChain store 0 now reg chain).1 = chain.map fun s => (s, store s)
  | [], _ => rfl
  | s :: rest, reg => by
    simp only [resolveChain, List.map_cons]
    rw [resolve_ttl_zero store now reg s,
      resolveChain_fst_ttl_zero store now rest (resolve store 0 now reg s).2]

theorem eventTargets_ttl_zero (store : Scope → List Destination) (now : Nat)
    (reg : Registry) (e : AuditEvent) :
    eventTargets store 0 now reg e = eventTargets store 0 now [] e := by
  simp [eventTargets, resolveChain_fst_ttl_zero]

theorem resolveTrace_ttl_zero (store : Scope → List Destination) (now : Nat)
    (reg : Registry) (e : AuditEvent) :
    resolveTrace store 0 now reg e = resolveTrace store 0 now [] e := by
  simp [resolveTrace, resolveChain_fst_ttl_zero]

theorem eventTargets_nil_reg (store : Scope → List Destination) (ttl now : Nat)
    (e : AuditEvent) :
    eventTargets store ttl now [] e = ((scopeChain e).map store).flatten := by
  cases e with
  | mk action context details =>
    cases context with
    | none => rfl
    | some ctx =>
      cases ctx with
      | mk site =>
        cases site with
        | none => rfl
        | some s => rfl

theorem logEvent_ttl_zero_reg_irrelevant
    (store : Scope → List Destination) (now : Nat)
    (formatters : List (AuditEvent → Option String))
    (maxConcurrent inflight : Nat) (respond : Destination → DeliveryResult)
    (reg : Registry) (u : Option String) (e : AuditEvent) :
    (logEventOrThrow store 0 now formatters maxConcurrent inflight respond reg u e).outcome
      = (logEventOrThrow store 0 now formatters maxConcurrent inflight respond [] u e).outcome
    ∧ (logEventOrThrow store 0 now formatters maxConcurrent inflight respond reg u e).trace
      = (logEventOrThrow store 0 now formatters maxConcurrent inflight respond [] u e).trace := by
  by_cases h : eventTargets store 0 now [] e = []
  · have h' : eventTargets store 0 now reg e = [] := by
      rw [eventTargets_ttl_zero]; exact h
    rw [logEvent_emptyBranch store 0 now formatters maxConcurrent inflight respond reg u e h',
      logEvent_emptyBranch store 0 now formatters maxConcurrent inflight respond [] u e h]
    exact ⟨rfl, by simp [resolveTrace_ttl_zero]⟩
  · have h' : eventTargets store 0 now reg e ≠ [] := by
      rw [eventTargets_ttl_zero]; exact h
    cases hf : tryFormat formatters e with
    | none =>
      rw [logEvent_noFormatterBranch store 0 now formatters maxConcurrent inflight respond reg u e h' hf,
        logEvent_noFormatterBranch store 0 now formatters maxConcurrent inflight respond [] u e h hf]
      exact ⟨rfl, by simp [resolveTrace_ttl_zero]⟩
    | some payload =>
      by_cases ha : maxConcurrent < inflight + (eventTargets store 0 now [] e).length
      · have ha' : maxConcurrent < inflight + (eventTargets store 0 now reg e).length := by
          rw [eventTargets_ttl_zero]; exact ha
        rw [logEvent_admissionBranch store 0 now formatters maxConcurrent inflight respond reg u e payload h' hf ha',
          logEvent_admissionBranch store 0 now formatters maxConcurrent inflight respond [] u e payload h hf ha]
        constructor
        · simp [eventTargets_ttl_zero]
        · simp [eventTargets_ttl_zero, resolveTrace_ttl_zero]
      · have hb : inflight + (eventTargets store 0 now [] e).length ≤ maxConcurrent :=
          Nat.le_of_not_lt ha
        have hb' : inflight + (eventTargets store 0 now reg e).length ≤ maxConcurrent := by
          rw [eventTargets_ttl_zero]; exact hb
        rw [logEvent_deliverBranch store 0 now formatters maxConcurrent inflight respond reg u e payload h' hf hb',
          logEvent_deliverBranch store 0 now formatters maxConcurrent inflight respond [] u e payload h hf hb]
        constructor
        · simp [eventTargets_ttl_zero]
        · simp [eventTargets_ttl_zero, resolveTrace_ttl_zero]

end AuditLog

namespace AuditLog

section Claims

variable (store : Scope → List Destination) (ttl now : Nat)
  (formatters : List (AuditEvent → Option String))
  (maxConcurrent inflight : Nat) (respond : Destination → DeliveryResult)
  (reg : Registry) (u : Option String) (e : AuditEvent)

/-- Claim C1: whenever at least one delivery of a dispatch fails,
`logEventOrThrow` rejects with the aggregated streaming error, whose
message carries the `/encountered errors while streaming audit event/`
marker; the aggregated list enumerates exactly the failing destinations'
identifiers and reasons; every configured destination still receives its
request; and no successful delivery is reported among the failures. -/
theorem streaming_failure_aggregation
    (payload : String)
    (hf : tryFormat formatters e = some payload)
    (ha : inflight + (eventTargets store ttl now reg e).length ≤ maxConcurrent)
    (hfail : deliveryFailures respond (eventTargets store ttl now reg e) ≠ []) :
    (logEventOrThrow store ttl now formatters maxConcurrent inflight respond reg u e).outcome
        = .error (.streaming (deliveryFailures respond (eventTargets store ttl now reg e)))
    ∧ (∃ rest, DispatchError.message
          (.streaming (deliveryFailures respond (eventTargets store ttl now reg e)))
        = streamingErrMarker ++ rest)
    ∧ sends (logEventOrThrow store ttl now formatters maxConcurrent inflight respond reg u e).trace
        = (eventTargets store ttl now reg e).map (fun d => mkRequest d payload)
    ∧ (∀ d ∈ eventTargets store ttl now reg e, ∀ rsn, respond d = .failure rsn →
        (d.id, rsn) ∈ deliveryFailures respond (eventTargets store ttl now reg e))
    ∧ (∀ pq ∈ deliveryFailures respond (eventTargets store ttl now reg e),
        ∃ d, d ∈ eventTargets store ttl now reg e
          ∧ respond d = .failure pq.2 ∧ d.id = pq.1) := by
  have hne := targets_ne_of_failures respond (eventTargets store ttl now reg e) hfail
  rw [logEvent_deliverBranch store ttl now formatters maxConcurrent inflight respond
    reg u e payload hne hf ha]
  refine ⟨?_, ⟨enumerateFailures _, rfl⟩, ?_, ?_, ?_⟩
  · simp [hfail]
  · simp only [sends_append, sends_resolveTrace, sends_formatTrace, sends_sendTrace,
      sends_releaseTrace, sends_acquireSingleton, List.nil_append, List.append_nil]
  · intro d hd rsn hr
    exact deliveryFailure_mem respond _ d rsn hd hr
  · intro pq hpq
    exact (mem_deliveryFailures respond _ pq).mp hpq

/-- Claim C1 witness: the concrete scenario of the non-2XX test (one 200
response, failures 400/404/500) instantiates `streaming_failure_aggregation`:
the call rejects with the three failing destinations enumerated. -/
theorem streaming_failure_aggregation_witness :
    (logEventOrThrow testStore 0 0 testFormatters 10 0 testRespond [] none testEvent).outcome
      = .error (.streaming (deliveryFailures testRespond (eventTargets testStore 0 0 [] testEvent))) :=
  (streaming_failure_aggregation testStore 0 0 testFormatters 10 0 testRespond
    [] none testEvent "document.create" rfl (by decide) (by decide)).1

/-- Claim C2: an event with site context is streamed to the union of the
installation-scope and site-scope destination lists, one POST per
configured destination (2 + 2 = 4 in the witness); a scope with no
configured destinations contributes zero requests, and the emptiness of a
scope never makes the dispatch fail. -/
theorem site_event_targets_union
    (payload : String) (sid : Nat)
    (hctx : e.context = some ⟨some ⟨sid⟩⟩)
    (hf : tryFormat formatters e = some payload)
    (ha : inflight + ((store Scope.install).length + (store (Scope.site sid)).length)
        ≤ maxConcurrent) :
    sends (logEventOrThrow store ttl now formatters maxConcurrent inflight respond [] u e).trace
        = (store Scope.install ++ store (Scope.site sid)).map (fun d => mkRequest d payload)
    ∧ (sends (logEventOrThrow store ttl now formatters maxConcurrent inflight respond [] u e).trace).length
        = (store Scope.install).length + (store (Scope.site sid)).length
    ∧ ((logEventOrThrow store ttl now formatters maxConcurrent inflight respond [] u e).outcome = .ok ()
        ∨ ∃ fs, (logEventOrThrow store ttl now formatters maxConcurrent inflight respond [] u e).outcome
            = .error (.streaming fs)) := by
  have hT : eventTargets store ttl now [] e
      = store Scope.install ++ store (Scope.site sid) := by
    rw [eventTargets_nil_reg]
    simp [scopeChain, hctx]
  by_cases h0 : store Scope.install ++ store (Scope.site sid) = []
  · have hnil := List.append_eq_nil.mp h0
    rw [logEvent_emptyBranch store ttl now formatters maxConcurrent inflight respond
      [] u e (hT.trans h0)]
    refine ⟨?_, ?_, Or.inl rfl⟩
    · rw [sends_resolveTrace, h0, List.map_nil]
    · rw [sends_resolveTrace, hnil.1, hnil.2]
      rfl
  · have hne : eventTargets store ttl now [] e ≠ [] := by
      rw [hT]; exact h0
    have ha' : inflight + (eventTargets store ttl now [] e).length ≤ maxConcurrent := by
      rw [hT, List.length_append]; exact ha
    rw [logEvent_deliverBranch store ttl now formatters maxConcurrent inflight respond
      [] u e payload hne hf ha']
    have hsends : sends (resolveTrace store ttl now [] e
          ++ (eventTargets store ttl now [] e).map (fun d => Action.formatPayload d.id payload)
          ++ [Action.acquireSlots (eventTargets store ttl now [] e).length]
          ++ (eventTargets store ttl now [] e).map (fun d => Action.send (mkRequest d payload))
          ++ (eventTargets store ttl now [] e).map (fun d => Action.releaseSlot d.id))
        = (eventTargets store ttl now [] e).map (fun d => mkRequest d payload) := by
      simp only [sends_append, sends_resolveTrace, sends_formatTrace, sends_sendTrace,
        sends_releaseTrace, sends_acquireSingleton, List.nil_append, List.append_nil]
    refine ⟨?_, ?_, ?_⟩
    · rw [hsends, hT]
    · rw [hsends, List.length_map, hT, List.length_append]
    · by_cases hfl : deliveryFailures respond (eventTargets store ttl now [] e) = []
      · exact Or.inl (by simp [hfl])
      · exact Or.inr ⟨deliveryFailures respond (eventTargets store ttl now [] e),
          by simp [hfl]⟩

/-- Claim C2 witness: with the test's configuration (2 installation + 2
site destinations for site 42), exactly 4 requests are issued. -/
theorem site_event_targets_union_witness :
    (sends (logEventOrThrow testStore 0 0 testFormatters 10 0 testRespond [] none testEvent).trace).length
      = (testStore Scope.install).length + (testStore (Scope.site 42)).length :=
  (site_event_targets_union testStore 0 0 testFormatters 10 0 testRespond none
    testEvent "document.create" 42 rfl rfl (by decide)).2.1

/-- Claim C3: when an event's required delivery count would push the
outstanding total past the ceiling, `logEventOrThrow` fails at once with
the admission error: no request of this event is issued, no admission
slot is taken, and the error's message carries the same
`/encountered errors while streaming audit event/` marker. -/
theorem admission_refusal_immediate
    (payload : String)
    (hf : tryFormat formatters e = some payload)
    (hne : eventTargets store ttl now reg e ≠ [])
    (ha : maxConcurrent < inflight + (eventTargets store ttl now reg e).length) :
    (logEventOrThrow store ttl now formatters maxConcurrent inflight respond reg u e).outcome
        = .error (.admissionExceeded (eventTargets store ttl now reg e).length
            (maxConcurrent - inflight))
    ∧ sends (logEventOrThrow store ttl now formatters maxConcurrent inflight respond reg u e).trace = []
    ∧ (∀ n, Action.acquireSlots n
        ∉ (logEventOrThrow store ttl now formatters maxConcurrent inflight respond reg u e).trace)
    ∧ ∃ rest, DispatchError.message
          (.admissionExceeded (eventTargets store ttl now reg e).length
            (maxConcurrent - inflight))
        = streamingErrMarker ++ rest := by
  rw [logEvent_admissionBranch store ttl now formatters maxConcurrent inflight respond
    reg u e payload hne hf ha]
  refine ⟨rfl, ?_, ?_, ⟨": exceeded maximum concurrent requests", rfl⟩⟩
  · simp [sends_append, sends_resolveTrace, sends_formatTrace]
  · intro n hmem
    rcases List.mem_append.mp hmem with hmem | hmem
    · simp [resolveTrace] at hmem
    · simp at hmem

/-- Claim C3 witness: the concrete saturation scenario of the test
(ceiling 10, 8 deliveries already in flight, a new dispatch needing 4)
is refused with no request issued. -/
theorem admission_refusal_immediate_witness :
    (logEventOrThrow testStore 0 0 testFormatters 10 8 testRespond [] none testEvent).outcome
        = .error (.admissionExceeded 4 2)
    ∧ sends (logEventOrThrow testStore 0 0 testFormatters 10 8 testRespond [] none testEvent).trace
        = [] := by
  have h := admission_refusal_immediate testStore 0 0 testFormatters 10 8 testRespond
    [] none testEvent "document.create" rfl (by decide) (by decide)
  exact ⟨h.1, h.2.1⟩

end Claims

end AuditLog

namespace AuditLog

section ClaimsDeliveryClient

variable (store : Scope → List Destination) (ttl now : Nat)
  (formatters : List (AuditEvent → Option String))
  (maxConcurrent inflight : Nat) (respond : Destination → DeliveryResult)
  (reg : Registry) (u : Option String) (e : AuditEvent)

/-- Claim C4: every request a dispatch issues is the POST of the formatted
JSON payload to its destination's `url`, and its `Authorization` header is
exactly the destination's configured token: present if and only if
`destination.token` is set (the configured tokens carry the `Bearer`
scheme, so a set header has the `Bearer ...` shape), and absent when no
token is configured. -/
theorem request_auth_header_iff_token (r : Request)
    (hr : r ∈ sends (logEventOrThrow store ttl now formatters maxConcurrent
        inflight respond reg u e).trace) :
    ∃ d payload, d ∈ eventTargets store ttl now reg e
      ∧ tryFormat formatters e = some payload
      ∧ r = mkRequest d payload
      ∧ r.url = d.url
      ∧ r.payload = payload
      ∧ r.authHeader = d.token
      ∧ (r.authHeader.isSome = d.token.isSome)
      ∧ (d.token = none → r.authHeader = none) := by
  by_cases h : eventTargets store ttl now reg e = []
  · rw [logEvent_emptyBranch store ttl now formatters maxConcurrent inflight respond
      reg u e h, sends_resolveTrace] at hr
    exact absurd hr (List.not_mem_nil r)
  · cases hf : tryFormat formatters e with
    | none =>
      rw [logEvent_noFormatterBranch store ttl now formatters maxConcurrent inflight
        respond reg u e h hf, sends_resolveTrace] at hr
      exact absurd hr (List.not_mem_nil r)
    | some payload =>
      by_cases ha : maxConcurrent < inflight + (eventTargets store ttl now reg e).length
      · rw [logEvent_admissionBranch store ttl now formatters maxConcurrent inflight
          respond reg u e payload h hf ha] at hr
        simp only [sends_append, sends_resolveTrace, sends_formatTrace,
          List.nil_append, List.append_nil] at hr
        exact absurd hr (List.not_mem_nil r)
      · rw [logEvent_deliverBranch store ttl now formatters maxConcurrent inflight
          respond reg u e payload h hf (Nat.le_of_not_lt ha)] at hr
        simp only [sends_append, sends_resolveTrace, sends_formatTrace, sends_sendTrace,
          sends_releaseTrace, sends_acquireSingleton, List.nil_append,
          List.append_nil] at hr
        obtain ⟨d, hd, hdr⟩ := List.mem_map.mp hr
        refine ⟨d, payload, hd, rfl, hdr.symm, ?_, ?_, ?_, ?_, ?_⟩ <;>
          rw [← hdr] <;> simp [mkRequest]

/-- Claim C4 witness: in the test's four-destination dispatch, the request
generated for the second installation destination (which has no token
configured) carries no `Authorization` header and targets that
destination's url. -/
theorem request_auth_header_iff_token_witness :
    ∃ d payload, d ∈ eventTargets testStore 0 0 [] testEvent
      ∧ tryFormat testFormatters testEvent = some payload
      ∧ (⟨"https://audit.example.com/events/install2",
          "4f174ff7-4f56-45c7-b557-712168f7cbec", "document.create", none⟩ : Request)
          = mkRequest d payload
      ∧ (⟨"https://audit.example.com/events/install2",
          "4f174ff7-4f56-45c7-b557-712168f7cbec", "document.create", none⟩ : Request).url
          = d.url
      ∧ (⟨"https://audit.example.com/events/install2",
          "4f174ff7-4f56-45c7-b557-712168f7cbec", "document.create", none⟩ : Request).payload
          = payload
      ∧ (⟨"https://audit.example.com/events/install2",
          "4f174ff7-4f56-45c7-b557-712168f7cbec", "document.create", none⟩ : Request).authHeader
          = d.token
      ∧ ((⟨"https://audit.example.com/events/install2",
          "4f174ff7-4f56-45c7-b557-712168f7cbec", "document.create", none⟩ : Request).authHeader.isSome
          = d.token.isSome)
      ∧ (d.token = none →
          (⟨"https://audit.example.com/events/install2",
            "4f174ff7-4f56-45c7-b557-712168f7cbec", "document.create", none⟩ : Request).authHeader
          = none) :=
  request_auth_header_iff_token testStore 0 0 testFormatters 10 0 testRespond
    [] none testEvent
    ⟨"https://audit.example.com/events/install2",
      "4f174ff7-4f56-45c7-b557-712168f7cbec", "document.create", none⟩
    (by decide)

/-- Claim C5: when no applicable scope of an event has any configured
destination, `logEventOrThrow` succeeds and issues zero HTTP requests. -/
theorem no_destinations_silent_success
    (h : ∀ s ∈ scopeChain e, store s = []) :
    (logEventOrThrow store ttl now formatters maxConcurrent inflight respond [] u e).outcome
        = .ok ()
    ∧ sends (logEventOrThrow store ttl now formatters maxConcurrent inflight respond [] u e).trace
        = [] := by
  have hT : eventTargets store ttl now [] e = [] := by
    rw [eventTargets_nil_reg]
    rw [List.flatten_eq_nil_iff]
    intro l hl
    obtain ⟨s, hs, rfl⟩ := List.mem_map.mp hl
    exact h s hs
  rw [logEvent_emptyBranch store ttl now formatters maxConcurrent inflight respond
    [] u e hT]
  exact ⟨rfl, sends_resolveTrace store ttl now [] e⟩

/-- Claim C5 witness: with nothing configured at either scope, the
dispatch of the test event succeeds with no request. -/
theorem no_destinations_silent_success_witness :
    (logEventOrThrow (fun _ => []) 0 0 testFormatters 10 0 testRespond [] none testEvent).outcome
        = .ok ()
    ∧ sends (logEventOrThrow (fun _ => []) 0 0 testFormatters 10 0 testRespond
        [] none testEvent).trace = [] :=
  no_destinations_silent_success (fun _ => []) 0 0 testFormatters 10 0 testRespond
    none testEvent (by intro s _; rfl)

/-- Claim C6: with `CACHE_TTL_MS = 0`, every `resolve` call fetches fresh
from the configuration store, so a dispatch's outcome and trace are the
same as from an empty cache whatever stale registry state is left over -
in particular, a second dispatch run after the configuration changed uses
only the new configuration. -/
theorem cache_ttl_zero_always_fresh :
    (∀ scope, (resolve store 0 now reg scope).1 = store scope)
    ∧ (logEventOrThrow store 0 now formatters maxConcurrent inflight respond reg u e).outcome
        = (logEventOrThrow store 0 now formatters maxConcurrent inflight respond [] u e).outcome
    ∧ (logEventOrThrow store 0 now formatters maxConcurrent inflight respond reg u e).trace
        = (logEventOrThrow store 0 now formatters maxConcurrent inflight respond [] u e).trace :=
  ⟨fun scope => resolve_ttl_zero store now reg scope,
    (logEvent_ttl_zero_reg_irrelevant store now formatters maxConcurrent inflight
      respond reg u e).1,
    (logEvent_ttl_zero_reg_irrelevant store now formatters maxConcurrent inflight
      respond reg u e).2⟩

end ClaimsDeliveryClient

end AuditLog

namespace AuditLog

theorem resolveTrace_not_admissionOrSend (store : Scope → List Destination)
    (ttl now : Nat) (reg : Registry) (e : AuditEvent) :
    ∀ a ∈ resolveTrace store ttl now reg e, a.isAdmissionOrSend = false := by
  intro a ha
  unfold resolveTrace at ha
  obtain ⟨p, _, rfl⟩ := List.mem_map.mp ha
  rfl

theorem formatTrace_not_admissionOrSend (targets : List Destination)
    (payload : String) :
    ∀ a ∈ targets.map (fun d => Action.formatPayload d.id payload),
      a.isAdmissionOrSend = false := by
  intro a ha
  obtain ⟨d, _, rfl⟩ := List.mem_map.mp ha
  rfl

theorem postTrace_not_preparatory (targets : List Destination)
    (payload : String) (n : Nat) :
    ∀ a ∈ [Action.acquireSlots n]
        ++ targets.map (fun d => Action.send (mkRequest d payload))
        ++ targets.map (fun d => Action.releaseSlot d.id),
      a.isPreparatory = false := by
  intro a ha
  simp only [List.mem_append, List.mem_singleton, List.mem_map] at ha
  rcases ha with (rfl | ⟨d, _, rfl⟩) | ⟨d, _, rfl⟩ <;> rfl

section ClaimsRemaining

variable (store : Scope → List Destination) (ttl now : Nat)
  (formatters : List (AuditEvent → Option String))
  (maxConcurrent inflight : Nat) (respond : Destination → DeliveryResult)
  (reg : Registry) (u : Option String) (e : AuditEvent)

/-- Claim C7 counterexample: the claim quantifies over *every* event, but
for an event whose resolved target list is empty the dispatcher succeeds
before formatting is ever attempted (spec section 4.5 step 3 precedes
step 4), so with only null-returning formatters the dispatch returns
success instead of failing with `NoFormatterError`. -/
theorem noFormatter_counterexample :
    (logEventOrThrow (fun _ => []) 0 0 [fun _ => none] 10 0 (fun _ => .success)
        [] none ⟨"document.create", none, ""⟩).outcome = .ok ()
    ∧ (logEventOrThrow (fun _ => []) 0 0 [fun _ => none] 10 0 (fun _ => .success)
        [] none ⟨"document.create", none, ""⟩).outcome ≠ .error .noFormatter := by
  decide

/-- Claim C7 (amended): for every event with at least one resolved target
destination, if every installed formatter returns null the dispatch fails
with `NoFormatterError` before any network call or slot acquisition; and
the formatter lookup tries formatters in registration order, using the
first non-null payload. -/
theorem formatter_first_match_and_abort :
    ((∀ f ∈ formatters, f e = none) →
      eventTargets store ttl now reg e ≠ [] →
      (logEventOrThrow store ttl now formatters maxConcurrent inflight respond reg u e).outcome
          = .error .noFormatter
        ∧ sends (logEventOrThrow store ttl now formatters maxConcurrent inflight
            respond reg u e).trace = []
        ∧ ∀ n, Action.acquireSlots n
            ∉ (logEventOrThrow store ttl now formatters maxConcurrent inflight
                respond reg u e).trace)
    ∧ (∀ k (hk : k < formatters.length) (p : String),
        (formatters.get ⟨k, hk⟩) e = some p →
        (∀ j (hj : j < k), (formatters.get ⟨j, Nat.lt_trans hj hk⟩) e = none) →
        tryFormat formatters e = some p) := by
  constructor
  · intro hnull hne
    have hf := tryFormat_eq_none_of_all_none e formatters hnull
    rw [logEvent_noFormatterBranch store ttl now formatters maxConcurrent inflight
      respond reg u e hne hf]
    refine ⟨rfl, sends_resolveTrace store ttl now reg e, ?_⟩
    intro n hn
    exact absurd (resolveTrace_not_admissionOrSend store ttl now reg e _ hn) (by simp [Action.isAdmissionOrSend])
  · intro k hk p hp hnone
    exact tryFormat_first e formatters k hk p hp hnone

/-- Claim C7 witness: with only a null formatter and the test's nonempty
destination configuration the dispatch fails with `NoFormatterError`; and
with the test's formatter set the first formatter's payload is used. -/
theorem formatter_first_match_and_abort_witness :
    (logEventOrThrow testStore 0 0 [fun _ => none] 10 0 testRespond [] none testEvent).outcome
        = .error .noFormatter
    ∧ tryFormat testFormatters testEvent = some "document.create" :=
  ⟨((formatter_first_match_and_abort testStore 0 0 [fun _ => none] 10 0 testRespond
      [] none testEvent).1 (by simp) (by decide)).1,
    (formatter_first_match_and_abort testStore 0 0 testFormatters 10 0 testRespond
      [] none testEvent).2 0 (by decide) "document.create" rfl
      (fun j hj => absurd hj (Nat.not_lt_zero j))⟩

/-- Claim C8: in every reachable state of the shared admission controller
the total number of slots held never exceeds `MAX_CONCURRENT_REQUESTS`;
and a delivery's completion releases exactly one slot, by a transition
that exists whether the delivery succeeded or failed. -/
theorem admission_slot_invariant (maxC : Nat) :
    (∀ s, SysReachable maxC s → s.totalHeld ≤ maxC)
    ∧ (∀ (l₁ l₂ : List Nat) (k : Nat) (success : Bool),
        SysStep maxC ⟨l₁ ++ (k + 1) :: l₂⟩ ⟨l₁ ++ k :: l₂⟩
          ∧ SystemState.totalHeld ⟨l₁ ++ k :: l₂⟩ + 1
              = SystemState.totalHeld ⟨l₁ ++ (k + 1) :: l₂⟩) := by
  constructor
  · intro s hs
    induction hs with
    | init => exact Nat.zero_le maxC
    | step hr hstep ih =>
      cases hstep with
      | acquire s n h =>
        simp only [SystemState.totalHeld, List.sum_cons]
        simp only [SystemState.totalHeld] at h
        omega
      | refuse s n h => exact ih
      | complete l₁ l₂ k success =>
        simp only [SystemState.totalHeld, List.sum_append, List.sum_cons] at ih ⊢
        omega
  · intro l₁ l₂ k success
    refine ⟨SysStep.complete l₁ l₂ k success, ?_⟩
    simp only [SystemState.totalHeld, List.sum_append, List.sum_cons]
    omega

/-- Claim C8 witness: after two dispatches of four deliveries each are
granted their slots under ceiling 10, the reachable state holds 8 slots, within the
ceiling. -/
theorem admission_slot_invariant_witness :
    SystemState.totalHeld ⟨[4, 4]⟩ ≤ 10 :=
  (admission_slot_invariant 10).1 ⟨[4, 4]⟩
    (SysReachable.step
      (SysReachable.step SysReachable.init (SysStep.acquire ⟨[]⟩ 4 (by decide)))
      (SysStep.acquire ⟨[4]⟩ 4 (by decide)))

/-- Claim C9: in every dispatch trace, all destination-resolution and
formatting steps precede every admission or network step (the trace splits
into a preparatory first part and a network second part), and any
admission request in the trace asks for exactly the event's complete
delivery count. -/
theorem preparation_precedes_network :
    (∃ l₁ l₂, (logEventOrThrow store ttl now formatters maxConcurrent inflight
          respond reg u e).trace = l₁ ++ l₂
      ∧ (∀ a ∈ l₁, a.isAdmissionOrSend = false)
      ∧ (∀ a ∈ l₂, a.isPreparatory = false))
    ∧ (∀ n, Action.acquireSlots n
          ∈ (logEventOrThrow store ttl now formatters maxConcurrent inflight
              respond reg u e).trace →
        n = (eventTargets store ttl now reg e).length) := by
  by_cases h : eventTargets store ttl now reg e = []
  · rw [logEvent_emptyBranch store ttl now formatters maxConcurrent inflight respond
      reg u e h]
    constructor
    · exact ⟨resolveTrace store ttl now reg e, [], (List.append_nil _).symm,
        resolveTrace_not_admissionOrSend store ttl now reg e,
        fun a ha => absurd ha (List.not_mem_nil a)⟩
    · intro n hn
      exact absurd (resolveTrace_not_admissionOrSend store ttl now reg e _ hn) (by simp [Action.isAdmissionOrSend])
  · cases hf : tryFormat formatters e with
    | none =>
      rw [logEvent_noFormatterBranch store ttl now formatters maxConcurrent inflight
        respond reg u e h hf]
      constructor
      · exact ⟨resolveTrace store ttl now reg e, [], (List.append_nil _).symm,
          resolveTrace_not_admissionOrSend store ttl now reg e,
          fun a ha => absurd ha (List.not_mem_nil a)⟩
      · intro n hn
        exact absurd (resolveTrace_not_admissionOrSend store ttl now reg e _ hn) (by simp [Action.isAdmissionOrSend])
    | some payload =>
      by_cases ha : maxConcurrent < inflight + (eventTargets store ttl now reg e).length
      · rw [logEvent_admissionBranch store ttl now formatters maxConcurrent inflight
          respond reg u e payload h hf ha]
        constructor
        · refine ⟨_, [], (List.append_nil _).symm, ?_,
            fun a haa => absurd haa (List.not_mem_nil a)⟩
          intro a haa
          rcases List.mem_append.mp haa with haa | haa
          · exact resolveTrace_not_admissionOrSend store ttl now reg e a haa
          · exact formatTrace_not_admissionOrSend _ payload a haa
        · intro n hn
          rcases List.mem_append.mp hn with hn | hn
          · exact absurd (resolveTrace_not_admissionOrSend store ttl now reg e _ hn) (by simp [Action.isAdmissionOrSend])
          · exact absurd (formatTrace_not_admissionOrSend _ payload _ hn) (by simp [Action.isAdmissionOrSend])
      · rw [logEvent_deliverBranch store ttl now formatters maxConcurrent inflight
          respond reg u e payload h hf (Nat.le_of_not_lt ha)]
        constructor
        · refine ⟨resolveTrace store ttl now reg e
              ++ (eventTargets store ttl now reg e).map
                  (fun d => Action.formatPayload d.id payload),
            [Action.acquireSlots (eventTargets store ttl now reg e).length]
              ++ (eventTargets store ttl now reg e).map
                  (fun d => Action.send (mkRequest d payload))
              ++ (eventTargets store ttl now reg e).map
                  (fun d => Action.releaseSlot d.id),
            by simp [List.append_assoc], ?_, postTrace_not_preparatory _ payload _⟩
          intro a haa
          rcases List.mem_append.mp haa with haa | haa
          · exact resolveTrace_not_admissionOrSend store ttl now reg e a haa
          · exact formatTrace_not_admissionOrSend _ payload a haa
        · intro n hn
          rcases List.mem_append.mp hn with hn | hn
          · rcases List.mem_append.mp hn with hn | hn
            · rcases List.mem_append.mp hn with hn | hn
              · rcases List.mem_append.mp hn with hn | hn
                · exact absurd (resolveTrace_not_admissionOrSend store ttl now reg e _ hn) (by simp [Action.isAdmissionOrSend])
                · exact absurd (formatTrace_not_admissionOrSend _ payload _ hn) (by simp [Action.isAdmissionOrSend])
              · rw [List.mem_singleton] at hn
                injection hn
            · obtain ⟨d, _, hd⟩ := List.mem_map.mp hn
              exact Action.noConfusion hd
          · obtain ⟨d, _, hd⟩ := List.mem_map.mp hn
            exact Action.noConfusion hd

/-- Claim C9 witness: in the concrete four-destination dispatch the single
admission request in the trace asks for exactly 4 slots, the event's
complete delivery count. -/
theorem preparation_precedes_network_witness :
    4 = (eventTargets testStore 0 0 [] testEvent).length :=
  (preparation_precedes_network testStore 0 0 testFormatters 10 0 testRespond
    [] none testEvent).2 4 (by decide)

end ClaimsRemaining

end AuditLog

namespace Streams

/-- Claim C10: `drainWhenSettled` settles with the same value or rejection
as the input promise unless draining the stream errors (in which case it
rejects with the drain error); in both the resolution and the rejection
case the stream is resumed when still readable (and untouched otherwise),
and the drain is awaited to completion strictly before the returned
promise settles, which is the last observable step. -/
theorem drainWhenSettled_spec {T : Type} (stream : StreamState)
    (promise : Except String T) :
    (stream.drainResult = .ok () → (drainWhenSettled stream promise).1 = promise)
    ∧ (∀ err, stream.drainResult = .error err →
        (drainWhenSettled stream promise).1 = .error err)
    ∧ (stream.readable = true → (drainWhenSettled stream promise).2.1.flowing = true)
    ∧ (stream.readable = false → (drainWhenSettled stream promise).2.1 = stream)
    ∧ (∃ pre, (drainWhenSettled stream promise).2.2
          = pre ++ [StreamAction.awaitFinished, StreamAction.settleReturned]
        ∧ StreamAction.awaitFinished ∉ pre
        ∧ StreamAction.settleReturned ∉ pre) := by
  refine ⟨?_, ?_, ?_, ?_, ?_⟩
  · intro h
    cases hr : stream.readable <;> simp [drainWhenSettled, hr, h]
  · intro err h
    cases hr : stream.readable <;> simp [drainWhenSettled, hr, h]
  · intro h
    simp [drainWhenSettled, h]
  · intro h
    simp [drainWhenSettled, h]
  · cases hr : stream.readable
    · exact ⟨[StreamAction.awaitPromise], by simp [drainWhenSettled, hr],
        by decide, by decide⟩
    · exact ⟨[StreamAction.awaitPromise, StreamAction.resumeStream],
        by simp [drainWhenSettled, hr], by decide, by decide⟩

/-- Claim C10 witness: for a readable stream whose draining completes and
a promise resolving to 42, the call resolves to 42, the stream is resumed;
and for an erroring drain the drain error replaces the promise's value. -/
theorem drainWhenSettled_spec_witness :
    (drainWhenSettled ⟨true, false, .ok ()⟩ (.ok 42 : Except String Nat)).1 = .ok 42
    ∧ (drainWhenSettled ⟨true, false, .ok ()⟩ (.ok 42 : Except String Nat)).2.1.flowing = true
    ∧ (drainWhenSettled ⟨true, false, .error "boom"⟩ (.ok 42 : Except String Nat)).1
        = .error "boom" :=
  ⟨(drainWhenSettled_spec ⟨true, false, .ok ()⟩ (.ok 42 : Except String Nat)).1 rfl,
    (drainWhenSettled_spec ⟨true, false, .ok ()⟩ (.ok 42 : Except String Nat)).2.2.1 rfl,
    (drainWhenSettled_spec ⟨true, false, .error "boom"⟩ (.ok 42 : Except String Nat)).2.1
      "boom" rfl⟩

end Streams
